import Mathlib

/-!
Verification development for the vncx RFB client.

Shallow embedding of `src/vncx/protocol.py` and `src/vncx/client.py`:
pure helpers become Lean functions, the security phase of the handshake and
the capture retry loop become explicit state-passing functions, and byte
strings become `List Nat` with every byte in `0..255`.
-/

namespace Vncx

/-- An RGB pixel as stored in the client's `(height, width, 3)` uint8 arrays. -/
structure RGB where
  r : Nat
  g : Nat
  b : Nat
deriving DecidableEq, Repr

/-- A pixel is black when all three channels are zero (numpy `== 0` on all channels). -/
def isBlack (p : RGB) : Bool :=
  p.r == 0 && p.g == 0 && p.b == 0

/-- Security type constant `SECURITY_NONE = 1` from `protocol.py`. -/
def SECURITY_NONE : Nat := 1

/-- Security type constant `SECURITY_VNC_AUTH = 2` from `protocol.py`. -/
def SECURITY_VNC_AUTH : Nat := 2

/-- Embedding of `VNCClient._reverse_bits`: eight iterations of
`result = (result << 1) | (byte_val & 1); byte_val >>= 1`. -/
def reverse_bits (byte_val : Nat) : Nat :=
  ((List.range 8).foldl
    (fun acc _ => ((acc.1 <<< 1) ||| (acc.2 &&& 1), acc.2 >>> 1))
    ((0 : Nat), byte_val)).1

/-- Embedding of the 4-bytes-per-pixel branch of `VNCClient._parse_raw_pixels`:
each group of four bytes `c0,c1,c2,c3` is reindexed by `[:, :, [2, 1, 0]]`,
producing the RGB triple `(c2, c1, c0)` and dropping `c3`. -/
def parseRaw4 : List Nat → List RGB
  | c0 :: c1 :: c2 :: _c3 :: rest => ⟨c2, c1, c0⟩ :: parseRaw4 rest
  | _ => []

/-- Embedding of the 2-bytes-per-pixel branch of `VNCClient._parse_raw_pixels`.
`np.frombuffer(data, dtype=np.uint16)` uses the platform's native byte order,
which is little endian on the x86/ARM machines this client runs on, so a byte
pair `c0, c1` becomes the word `c0 + 256 * c1`; then
`r = (v & 0xF800) >> 8`, `g = (v & 0x07E0) >> 3`, `b = (v & 0x001F) << 3`. -/
def parseRaw2 : List Nat → List RGB
  | c0 :: c1 :: rest =>
    let v := c0 + 256 * c1
    ⟨(v &&& 0xF800) >>> 8, (v &&& 0x07E0) >>> 3, (v &&& 0x001F) <<< 3⟩ :: parseRaw2 rest
  | _ => []

/-- Decoder following the claim's words, for comparison with `parseRaw2`:
each byte pair is a big-endian word (first byte most significant) and
red = bits 15-11 shifted left 3, green = bits 10-5 shifted left 3,
blue = bits 4-0 shifted left 3. -/
def parseRaw2Claim : List Nat → List RGB
  | c0 :: c1 :: rest =>
    let v := 256 * c0 + c1
    ⟨((v >>> 11) % 32) <<< 3, ((v >>> 5) % 64) <<< 3, (v % 32) <<< 3⟩ :: parseRaw2Claim rest
  | _ => []

/-- Embedding of the `PixelFormat` record from `protocol.py` (ten fields). -/
structure PixelFormat where
  bits_per_pixel : Nat
  depth : Nat
  big_endian : Nat
  true_colour : Nat
  red_max : Nat
  green_max : Nat
  blue_max : Nat
  red_shift : Nat
  green_shift : Nat
  blue_shift : Nat
deriving DecidableEq, Repr

/-- Big-endian encoding of a 16-bit value as two bytes (`struct` format `H`). -/
def u16be (v : Nat) : List Nat := [v / 256, v % 256]

/-- Embedding of `PixelFormat.pack`, `struct.pack("!BBBB HHH BBB xxx", ...)`.
`struct.pack` raises on out-of-range values, modelled as `none`. -/
def PixelFormat.pack (pf : PixelFormat) : Option (List Nat) :=
  if pf.bits_per_pixel < 256 ∧ pf.depth < 256 ∧ pf.big_endian < 256 ∧ pf.true_colour < 256
      ∧ pf.red_max < 65536 ∧ pf.green_max < 65536 ∧ pf.blue_max < 65536
      ∧ pf.red_shift < 256 ∧ pf.green_shift < 256 ∧ pf.blue_shift < 256 then
    some ([pf.bits_per_pixel, pf.depth, pf.big_endian, pf.true_colour]
      ++ u16be pf.red_max ++ u16be pf.green_max ++ u16be pf.blue_max
      ++ [pf.red_shift, pf.green_shift, pf.blue_shift, 0, 0, 0])
  else
    none

/-- Embedding of `PixelFormat.unpack`, `struct.unpack("!BBBB HHH BBB xxx", data)`.
`struct.unpack` raises unless the buffer is exactly 16 bytes, modelled as `none`. -/
def PixelFormat.unpack (data : List Nat) : Option PixelFormat :=
  match data with
  | [b0, b1, b2, b3, b4, b5, b6, b7, b8, b9, b10, b11, b12, _, _, _] =>
    some ⟨b0, b1, b2, b3, 256 * b4 + b5, 256 * b6 + b7, 256 * b8 + b9, b10, b11, b12⟩
  | _ => none

/-- Observable events of the security phase of `VNCClient._connect` (lines 53-69). -/
inductive SecEvent where
  | selectNone
  | selectVncAuth
  | vncAuth
  | readSecurityResult
  | clientInit
deriving DecidableEq, Repr

/-- Embedding of the security phase of `VNCClient._connect` (lines 53-69):
selection of the security type, the optional VNC authentication exchange, the
guarded 4-byte SecurityResult read, and ClientInit. `hasPassword` is the
truthiness of `self.password`; `securityResult` is the value the server would
send if the 4-byte read happens. -/
def securityPhase (security_types : List Nat) (hasPassword : Bool)
    (securityResult : Nat) : Except String (List SecEvent) :=
  match (if SECURITY_NONE ∈ security_types then
      Except.ok [SecEvent.selectNone]
    else if SECURITY_VNC_AUTH ∈ security_types then
      if hasPassword = false then
        Except.error "VNC authentication required but no password provided"
      else
        Except.ok [SecEvent.selectVncAuth, SecEvent.vncAuth]
    else
      (Except.error "No supported security type" : Except String (List SecEvent))) with
  | Except.error e => Except.error e
  | Except.ok evs =>
    if SECURITY_VNC_AUTH ∈ security_types ∧ hasPassword = true then
      if securityResult ≠ 0 then
        Except.error "VNC authentication failed"
      else
        Except.ok (evs ++ [SecEvent.readSecurityResult, SecEvent.clientInit])
    else
      Except.ok (evs ++ [SecEvent.clientInit])

/-- Red-channel identity for the 16-bit decoder: masking with `0xF800` then
shifting right 8 extracts the 5-bit field in bits 15-11 and shifts it left 3. -/
theorem and_f800_eq (v : Nat) : (v &&& 0xF800) >>> 8 = ((v >>> 11) % 32) <<< 3 := by
  apply Nat.eq_of_testBit_eq
  intro i
  have h1 : (0xF800 : Nat) = 31 <<< 11 := by decide
  have h2 : (32 : Nat) = 2 ^ 5 := by norm_num
  have h3 : (31 : Nat) = 2 ^ 5 - 1 := by norm_num
  rw [h1, h2, h3]
  simp only [Nat.testBit_shiftRight, Nat.testBit_and, Nat.testBit_shiftLeft,
    Nat.testBit_mod_two_pow, Nat.testBit_two_pow_sub_one]
  by_cases ha : 3 ≤ i <;> by_cases hb : i < 8
  · have e1 : 11 + (i - 3) = 8 + i := by omega
    rw [e1]
    have e2 : 8 + i ≥ 11 := by omega
    have e3 : 8 + i - 11 < 5 := by omega
    have e5 : i - 3 < 5 := by omega
    simp [e2, e3, ha, e5, Bool.and_comm]
  · have e3 : ¬(8 + i - 11 < 5) := by omega
    have e5 : ¬(i - 3 < 5) := by omega
    simp [e3, e5]
  · have e2 : ¬(8 + i ≥ 11) := by omega
    simp [e2, ha]
  · omega

/-- Green-channel identity for the 16-bit decoder: masking with `0x07E0` then
shifting right 3 extracts the 6-bit field in bits 10-5 and shifts it left 2
(not 3: shifting the field left 3 would give values up to 504). -/
theorem and_07e0_eq (v : Nat) : (v &&& 0x07E0) >>> 3 = ((v >>> 5) % 64) <<< 2 := by
  apply Nat.eq_of_testBit_eq
  intro i
  have h1 : (0x07E0 : Nat) = 63 <<< 5 := by decide
  have h2 : (64 : Nat) = 2 ^ 6 := by norm_num
  have h3 : (63 : Nat) = 2 ^ 6 - 1 := by norm_num
  rw [h1, h2, h3]
  simp only [Nat.testBit_shiftRight, Nat.testBit_and, Nat.testBit_shiftLeft,
    Nat.testBit_mod_two_pow, Nat.testBit_two_pow_sub_one]
  by_cases ha : 2 ≤ i <;> by_cases hb : i < 8
  · have e1 : 5 + (i - 2) = 3 + i := by omega
    rw [e1]
    have e2 : 3 + i ≥ 5 := by omega
    have e3 : 3 + i - 5 < 6 := by omega
    have e5 : i - 2 < 6 := by omega
    simp [e2, e3, ha, e5, Bool.and_comm]
  · have e3 : ¬(3 + i - 5 < 6) := by omega
    have e5 : ¬(i - 2 < 6) := by omega
    simp [e3, e5]
  · have e2 : ¬(3 + i ≥ 5) := by omega
    simp [e2, ha]
  · omega

/-- Blue-channel identity for the 16-bit decoder: masking with `0x001F`
extracts the low five bits. -/
theorem and_001f_eq (v : Nat) : v &&& 0x001F = v % 32 := by
  have h := Nat.and_pow_two_sub_one_eq_mod v 5
  norm_num at h
  exact h

set_option maxRecDepth 4000 in
/-- C9: the per-byte bit reversal used for VNC key derivation is an involution:
for every byte value `b` in `0..255`, `reverse(reverse(b)) = b`, and
`reverse(b)` is itself a value in `0..255`. -/
theorem c9_theorem (b : Nat) (h : b < 256) :
    reverse_bits (reverse_bits b) = b ∧ reverse_bits b < 256 := by
  have hall : ∀ x : Nat, x < 256 →
      reverse_bits (reverse_bits x) = x ∧ reverse_bits x < 256 := by decide
  exact hall b h

/-- Witness for C9 at the concrete byte 3. -/
theorem c9_witness :
    (3 : Nat) < 256 ∧ (reverse_bits (reverse_bits 3) = 3 ∧ reverse_bits 3 < 256) :=
  ⟨by decide, c9_theorem 3 (by decide)⟩

/-- C6: for 4-bytes-per-pixel raw data the decoder reads each pixel's four
bytes in order as (B,G,R,A) and outputs (R,G,B), discarding alpha; the four
listed byte sequences decode to red, green, blue and white. -/
theorem c6_theorem :
    (∀ (c0 c1 c2 c3 : Nat) (rest : List Nat),
      parseRaw4 (c0 :: c1 :: c2 :: c3 :: rest) = ⟨c2, c1, c0⟩ :: parseRaw4 rest)
    ∧ parseRaw4 [0x00, 0x00, 0xFF, 0xFF] = [⟨0xFF, 0x00, 0x00⟩]
    ∧ parseRaw4 [0x00, 0xFF, 0x00, 0xFF] = [⟨0x00, 0xFF, 0x00⟩]
    ∧ parseRaw4 [0xFF, 0x00, 0x00, 0xFF] = [⟨0x00, 0x00, 0xFF⟩]
    ∧ parseRaw4 [0xFF, 0xFF, 0xFF, 0xFF] = [⟨0xFF, 0xFF, 0xFF⟩] :=
  ⟨fun _ _ _ _ _ => rfl, rfl, rfl, rfl, rfl⟩

/-- Counterexample for C3: on the byte pair `(0xE0, 0x07)` the code decodes
the native little-endian word `0x07E0` to `(0, 252, 0)`, while the claim
(big-endian word, all three channels shifted left 3, embodied by
`parseRaw2Claim`) predicts `(224, 0, 56)`. -/
theorem c3_counterexample :
    parseRaw2 [0xE0, 0x07] = [⟨0, 252, 0⟩]
    ∧ parseRaw2Claim [0xE0, 0x07] = [⟨224, 0, 56⟩]
    ∧ parseRaw2 [0xE0, 0x07] ≠ parseRaw2Claim [0xE0, 0x07] := by
  refine ⟨rfl, rfl, ?_⟩
  decide

/-- C3 amended: the decoder combines each byte pair as a native little-endian
word (first byte least significant); red is the 5-bit field in bits 15-11
shifted left 3, green is the 6-bit field in bits 10-5 shifted left 2, blue is
the 5-bit field in bits 4-0 shifted left 3; word `0x0000` (bytes `00 00`)
decodes to `(0,0,0)` and word `0xFFFF` (bytes `FF FF`) to `(248,252,248)`. -/
theorem c3_theorem :
    (∀ (c0 c1 : Nat) (rest : List Nat),
      parseRaw2 (c0 :: c1 :: rest) =
        ⟨(((c0 + 256 * c1) >>> 11) % 32) <<< 3,
         (((c0 + 256 * c1) >>> 5) % 64) <<< 2,
         ((c0 + 256 * c1) % 32) <<< 3⟩ :: parseRaw2 rest)
    ∧ parseRaw2 [0x00, 0x00] = [⟨0, 0, 0⟩]
    ∧ parseRaw2 [0xFF, 0xFF] = [⟨248, 252, 248⟩] := by
  refine ⟨?_, by decide, by decide⟩
  intro c0 c1 rest
  simp only [parseRaw2]
  rw [and_f800_eq, and_07e0_eq, and_001f_eq]

/-- Counterexample for C1: with offered security-type list `[1, 2]` and a
non-empty password, the client selects None (code 1) but still reads the
4-byte SecurityResult before ClientInit, because the read is guarded by
membership of code 2 in the list, not by the selected type. -/
theorem c1_counterexample :
    securityPhase [1, 2] true 0 =
      Except.ok [SecEvent.selectNone, SecEvent.readSecurityResult, SecEvent.clientInit]
    ∧ SecEvent.readSecurityResult ∈
        [SecEvent.selectNone, SecEvent.readSecurityResult, SecEvent.clientInit] :=
  ⟨rfl, by decide⟩

/-- C1 amended: None is selected whenever code 1 is offered, but the 4-byte
SecurityResult is read exactly when code 2 appears in the offered list and the
configured password is non-empty, regardless of which type was selected; when
VNC Authentication was the selected type the SecurityResult is always read. -/
theorem c1_theorem (sts : List Nat) (hp : Bool) (sr : Nat) (evs : List SecEvent)
    (h : securityPhase sts hp sr = Except.ok evs) :
    (SecEvent.readSecurityResult ∈ evs ↔ SECURITY_VNC_AUTH ∈ sts ∧ hp = true)
    ∧ (SECURITY_NONE ∈ sts → SecEvent.selectNone ∈ evs)
    ∧ (SecEvent.selectVncAuth ∈ evs → SecEvent.readSecurityResult ∈ evs) := by
  unfold securityPhase at h
  by_cases hn : SECURITY_NONE ∈ sts <;> by_cases ha : SECURITY_VNC_AUTH ∈ sts <;>
    cases hp <;> by_cases hsr : sr = 0 <;>
    simp [hn, ha, hsr] at h <;> subst h <;> simp [hn, ha]

/-- Witness for C1 amended: offered list `[2]`, non-empty password,
security result 0. -/
theorem c1_witness :
    (SecEvent.readSecurityResult ∈
        [SecEvent.selectVncAuth, SecEvent.vncAuth, SecEvent.readSecurityResult,
          SecEvent.clientInit]
      ↔ SECURITY_VNC_AUTH ∈ ([2] : List Nat) ∧ true = true)
    ∧ (SECURITY_NONE ∈ ([2] : List Nat) → SecEvent.selectNone ∈
        [SecEvent.selectVncAuth, SecEvent.vncAuth, SecEvent.readSecurityResult,
          SecEvent.clientInit])
    ∧ (SecEvent.selectVncAuth ∈
        [SecEvent.selectVncAuth, SecEvent.vncAuth, SecEvent.readSecurityResult,
          SecEvent.clientInit]
      → SecEvent.readSecurityResult ∈
        [SecEvent.selectVncAuth, SecEvent.vncAuth, SecEvent.readSecurityResult,
          SecEvent.clientInit]) :=
  c1_theorem [2] true 0 _ rfl

/-- C8: for every `PixelFormat` whose fields are in range, `pack` succeeds
with exactly 16 bytes in the big-endian layout and `unpack` recovers a record
with all ten fields equal. -/
theorem c8_theorem (pf : PixelFormat)
    (h : pf.bits_per_pixel < 256 ∧ pf.depth < 256 ∧ pf.big_endian < 256 ∧ pf.true_colour < 256
      ∧ pf.red_max < 65536 ∧ pf.green_max < 65536 ∧ pf.blue_max < 65536
      ∧ pf.red_shift < 256 ∧ pf.green_shift < 256 ∧ pf.blue_shift < 256) :
    ∃ bs : List Nat, pf.pack = some bs ∧ bs.length = 16 ∧ PixelFormat.unpack bs = some pf := by
  obtain ⟨b1, b2, b3, b4, r5, g6, l7, s8, s9, s10⟩ := pf
  refine ⟨[b1, b2, b3, b4, r5 / 256, r5 % 256, g6 / 256, g6 % 256, l7 / 256, l7 % 256,
    s8, s9, s10, 0, 0, 0], ?_, rfl, ?_⟩
  · unfold PixelFormat.pack
    rw [if_pos h]
    simp [u16be]
  · show some (⟨b1, b2, b3, b4, 256 * (r5 / 256) + r5 % 256, 256 * (g6 / 256) + g6 % 256,
        256 * (l7 / 256) + l7 % 256, s8, s9, s10⟩ : PixelFormat)
      = some ⟨b1, b2, b3, b4, r5, g6, l7, s8, s9, s10⟩
    have e5 : 256 * (r5 / 256) + r5 % 256 = r5 := by omega
    have e6 : 256 * (g6 / 256) + g6 % 256 = g6 := by omega
    have e7 : 256 * (l7 / 256) + l7 % 256 = l7 := by omega
    rw [e5, e6, e7]

/-- Witness for C8 at the client's default pixel format. -/
theorem c8_witness :
    ∃ bs : List Nat, PixelFormat.pack ⟨32, 24, 0, 1, 255, 255, 255, 16, 8, 0⟩ = some bs
      ∧ bs.length = 16
      ∧ PixelFormat.unpack bs = some ⟨32, 24, 0, 1, 255, 255, 255, 16, 8, 0⟩ :=
  c8_theorem ⟨32, 24, 0, 1, 255, 255, 255, 16, 8, 0⟩ (by decide)

/-- An RGB pixel array together with its `(height, width)` shape, as produced
by `np.zeros((height, width, 3), dtype=np.uint8)` and the decoders. -/
structure Frame where
  height : Nat
  width : Nat
  px : Nat → Nat → RGB

/-- Embedding of `np.zeros((height, width, 3), dtype=np.uint8)`. -/
def zerosFrame (height width : Nat) : Frame :=
  ⟨height, width, fun _ _ => ⟨0, 0, 0⟩⟩

/-- Embedding of `np.any(result != 0)`: some in-bounds pixel has a non-zero
channel. -/
def anyNonZero (f : Frame) : Bool :=
  (List.range f.height).any
    (fun i => (List.range f.width).any (fun j => !(isBlack (f.px i j))))

/-- Embedding of the partial-update merge of `VNCClient.capture_region`
(lines 234-247): clamp the window to the screen
(`end_y = min(y + height, self.height)`, `end_x = min(x + width, self.width)`),
and inside the window overwrite exactly the pixels whose incoming value is
non-black. The `np.any(non_black_mask)` guard of line 241 only skips an empty
update and does not change the resulting buffer contents. -/
def mergeRegion (x y width height : Nat) (region_data : Nat → Nat → RGB)
    (H W : Nat) (fb : Nat → Nat → RGB) : Nat → Nat → RGB :=
  let end_y := min (y + height) H
  let end_x := min (x + width) W
  if y < end_y ∧ x < end_x then
    fun i j =>
      if y ≤ i ∧ i < end_y ∧ x ≤ j ∧ j < end_x
          ∧ isBlack (region_data (i - y) (j - x)) = false then
        region_data (i - y) (j - x)
      else fb i j
  else fb

/-- Embedding of the framebuffer update step of `VNCClient.capture_region`
(lines 220-248): a request covering exactly the full negotiated screen
replaces the framebuffer with a copy of `region_data`; any other request
merges `region_data` into the existing framebuffer in place. -/
def capture_region_framebuffer (H W x y width height : Nat) (region_data : Frame)
    (fb : Frame) : Frame :=
  if x = 0 ∧ y = 0 ∧ width = W ∧ height = H then
    ⟨region_data.height, region_data.width, region_data.px⟩
  else
    ⟨fb.height, fb.width, mergeRegion x y width height region_data.px H W fb.px⟩

/-- Embedding of the rectangle compositing step of `VNCClient.capture_region`
(lines 205-216): the decoded rectangle `pixels` (shape `rh × rw`, screen
position `(rx, ry)`) is copied, clipped against the requested viewport
`(x, y, width, height)`, into the result buffer `dest`. Coordinates are
integers, matching Python's unbounded int arithmetic. -/
def compositeRect (x y width height rx ry rw rh : Int)
    (pixels dest : Int → Int → RGB) : Int → Int → RGB :=
  let end_y := min (ry + rh - y) height
  let end_x := min (rx + rw - x) width
  let start_y := max (ry - y) 0
  let start_x := max (rx - x) 0
  if start_y < end_y ∧ start_x < end_x then
    let src_start_y := max (y - ry) 0
    let src_start_x := max (x - rx) 0
    fun i j =>
      if start_y ≤ i ∧ i < end_y ∧ start_x ≤ j ∧ j < end_x then
        pixels (src_start_y + (i - start_y)) (src_start_x + (j - start_x))
      else dest i j
  else dest

/-- C2: for every partial-region update, the merge into the framebuffer is
pixel-by-pixel: inside the (screen-clamped) window a pixel receives the
incoming value exactly when that incoming value is non-black, and every other
framebuffer pixel — black incoming, or outside the window — keeps its previous
value; in particular no existing non-black pixel is ever replaced by an
incoming black pixel. -/
theorem c2_theorem (H W x y width height : Nat) (region_data fb : Frame)
    (hpart : ¬(x = 0 ∧ y = 0 ∧ width = W ∧ height = H)) (i j : Nat) :
    (capture_region_framebuffer H W x y width height region_data fb).px i j =
      (if y ≤ i ∧ i < min (y + height) H ∧ x ≤ j ∧ j < min (x + width) W
          ∧ isBlack (region_data.px (i - y) (j - x)) = false
        then region_data.px (i - y) (j - x)
        else fb.px i j) := by
  unfold capture_region_framebuffer
  rw [if_neg hpart]
  show mergeRegion x y width height region_data.px H W fb.px i j = _
  simp only [mergeRegion]
  split
  · rfl
  · rename_i hg
    by_cases hin : y ≤ i ∧ i < min (y + height) H ∧ x ≤ j ∧ j < min (x + width) W
        ∧ isBlack (region_data.px (i - y) (j - x)) = false
    · exact absurd ⟨by omega, by omega⟩ hg
    · rw [if_neg hin]

/-- Witness for C2: a 1-by-1 non-black region merged at `(1, 1)` of a 2-by-2
framebuffer lands at pixel `(1, 1)`. -/
theorem c2_witness :
    (capture_region_framebuffer 2 2 1 1 1 1 ⟨1, 1, fun _ _ => ⟨9, 9, 9⟩⟩
        ⟨2, 2, fun _ _ => ⟨1, 2, 3⟩⟩).px 1 1 = ⟨9, 9, 9⟩ := by
  have h := c2_theorem 2 2 1 1 1 1 ⟨1, 1, fun _ _ => ⟨9, 9, 9⟩⟩
    ⟨2, 2, fun _ _ => ⟨1, 2, 3⟩⟩ (by decide) 1 1
  rw [h]
  decide

/-- C4: the compositing of a server rectangle into the requested region's
result buffer writes exactly the pixels of the geometric overlap between the
rectangle and the requested region, at the translated coordinates, and every
result-buffer pixel outside the overlap keeps its previous value (so a
rectangle with empty overlap changes nothing, without being an error). -/
theorem c4_theorem (x y width height rx ry rw rh : Int) (pixels dest : Int → Int → RGB)
    (i j : Int) (hij : 0 ≤ i ∧ i < height ∧ 0 ≤ j ∧ j < width) :
    ((ry ≤ y + i ∧ y + i < ry + rh ∧ rx ≤ x + j ∧ x + j < rx + rw) →
      compositeRect x y width height rx ry rw rh pixels dest i j
        = pixels (y + i - ry) (x + j - rx))
    ∧ (¬(ry ≤ y + i ∧ y + i < ry + rh ∧ rx ≤ x + j ∧ x + j < rx + rw) →
      compositeRect x y width height rx ry rw rh pixels dest i j = dest i j) := by
  obtain ⟨hi0, hih, hj0, hjw⟩ := hij
  simp only [compositeRect]
  constructor
  · intro hov
    obtain ⟨h1, h2, h3, h4⟩ := hov
    rw [if_pos ⟨by omega, by omega⟩, if_pos ⟨by omega, by omega, by omega, by omega⟩]
    have e1 : max (y - ry) 0 + (i - max (ry - y) 0) = y + i - ry := by omega
    have e2 : max (x - rx) 0 + (j - max (rx - x) 0) = x + j - rx := by omega
    rw [e1, e2]
  · intro hov
    by_cases hg : max (ry - y) 0 < min (ry + rh - y) height
        ∧ max (rx - x) 0 < min (rx + rw - x) width
    · rw [if_pos hg]
      by_cases hin : max (ry - y) 0 ≤ i ∧ i < min (ry + rh - y) height
          ∧ max (rx - x) 0 ≤ j ∧ j < min (rx + rw - x) width
      · exact absurd ⟨by omega, by omega, by omega, by omega⟩ hov
      · rw [if_neg hin]
    · rw [if_neg hg]

/-- Witness for C4: requesting `(0, 0, 2, 2)` and receiving a rectangle at
`(1, 1)` of size `2 × 2`, result pixel `(1, 1)` receives source pixel
`(0, 0)` of the rectangle. -/
theorem c4_witness :
    compositeRect 0 0 2 2 1 1 2 2 (fun _ _ => ⟨7, 7, 7⟩) (fun _ _ => ⟨1, 2, 3⟩) 1 1
      = ⟨7, 7, 7⟩ := by
  have h := (c4_theorem 0 0 2 2 1 1 2 2 (fun _ _ => ⟨7, 7, 7⟩) (fun _ _ => ⟨1, 2, 3⟩) 1 1
    (by refine ⟨by decide, by decide, by decide, by decide⟩)).1
    ⟨by decide, by decide, by decide, by decide⟩
  rw [h]

/-- C10: the framebuffer keeps the negotiated `(H, W)` shape across every
`capture_region` call: the wholesale-replacement branch fires only when the
request covers exactly the full screen (and then the replacement has the
screen's own shape), and the partial branch updates the existing buffer in
place. -/
theorem c10_theorem (H W x y width height : Nat) (region_data fb : Frame)
    (hrd : region_data.height = height ∧ region_data.width = width)
    (hfb : fb.height = H ∧ fb.width = W) :
    (capture_region_framebuffer H W x y width height region_data fb).height = H
    ∧ (capture_region_framebuffer H W x y width height region_data fb).width = W
    ∧ (¬(x = 0 ∧ y = 0 ∧ width = W ∧ height = H) →
        (capture_region_framebuffer H W x y width height region_data fb).px
          = mergeRegion x y width height region_data.px H W fb.px) := by
  unfold capture_region_framebuffer
  by_cases hc : x = 0 ∧ y = 0 ∧ width = W ∧ height = H
  · rw [if_pos hc]
    exact ⟨by rw [hrd.1, hc.2.2.2], by rw [hrd.2, hc.2.2.1], fun hk => absurd hc hk⟩
  · rw [if_neg hc]
    exact ⟨hfb.1, hfb.2, fun _ => rfl⟩

/-- Witness for C10: a full-screen request on a 2-by-2 screen keeps the
shape `(2, 2)`. -/
theorem c10_witness :
    (capture_region_framebuffer 2 2 0 0 2 2 ⟨2, 2, fun _ _ => ⟨9, 9, 9⟩⟩
        (zerosFrame 2 2)).height = 2
    ∧ (capture_region_framebuffer 2 2 0 0 2 2 ⟨2, 2, fun _ _ => ⟨9, 9, 9⟩⟩
        (zerosFrame 2 2)).width = 2
    ∧ (¬((0 : Nat) = 0 ∧ (0 : Nat) = 0 ∧ (2 : Nat) = 2 ∧ (2 : Nat) = 2) →
        (capture_region_framebuffer 2 2 0 0 2 2 ⟨2, 2, fun _ _ => ⟨9, 9, 9⟩⟩
          (zerosFrame 2 2)).px
          = mergeRegion 0 0 2 2 (fun _ _ => ⟨9, 9, 9⟩) 2 2 (zerosFrame 2 2).px) :=
  c10_theorem 2 2 0 0 2 2 ⟨2, 2, fun _ _ => ⟨9, 9, 9⟩⟩ (zerosFrame 2 2)
    ⟨rfl, rfl⟩ ⟨rfl, rfl⟩

/-- Outcome of one `capture_region(0, 0, self.width, self.height)` call inside
`capture_screen`: the returned region, or a raised exception. -/
inductive CapResult where
  | frame (f : Frame)
  | error (e : String)

/-- The cache state `(self._frame_updated, self._last_frame)` read and written
by `capture_screen` and the full-screen branch of `capture_region`. -/
structure CapState where
  frame_updated : Bool
  last_frame : Option Frame

/-- Retry bound `max_retries = 3` of `VNCClient.capture_screen`. -/
def max_retries : Nat := 3

/-- Embedding of the retry loop of `VNCClient.capture_screen` (lines 130-168).
`outcomes` lists the results of the successive `capture_region` calls. A
successful full-screen `capture_region` itself sets `self._last_frame` to the
returned region and `self._frame_updated` to true (lines 223-225) before
`capture_screen` inspects the result, which lines 137-138 then re-establish in
the non-black case. The sleeps and the input nudges between attempts do not
touch the cache state and are dropped. The `return` after the loop (line 168,
unreachable because the last attempt always returns or raises) yields the
all-zero frame. -/
def capture_screen_go (H W : Nat) : List CapResult → Nat → CapState →
    Except String (Frame × CapState)
  | [], _, st => Except.ok (zerosFrame H W, st)
  | CapResult.error e :: rest, attempt, st =>
    if attempt = max_retries - 1 then Except.error e
    else capture_screen_go H W rest (attempt + 1) st
  | CapResult.frame result :: rest, attempt, _st =>
    let st2 : CapState := ⟨true, some result⟩
    if anyNonZero result then
      Except.ok (result, ⟨true, some result⟩)
    else if attempt = max_retries - 1 then
      if st2.frame_updated ∧ st2.last_frame.isSome then
        Except.ok (st2.last_frame.getD result, st2)
      else
        Except.ok (result, st2)
    else
      capture_screen_go H W rest (attempt + 1) st2

/-- The loop at attempt index 2 (the last) never continues to a further
attempt: its result only depends on the first remaining outcome. -/
theorem capture_screen_go_last (H W : Nat) (outs : List CapResult) (st : CapState) :
    capture_screen_go H W outs 2 st = capture_screen_go H W (outs.take 1) 2 st := by
  cases outs with
  | nil => rfl
  | cons o t =>
    cases o with
    | error e => simp [capture_screen_go, max_retries]
    | frame f =>
      by_cases hnz : anyNonZero f <;> simp [capture_screen_go, max_retries, hnz]

/-- The loop at attempt index 1 consumes at most two further outcomes. -/
theorem capture_screen_go_snd (H W : Nat) (outs : List CapResult) (st : CapState) :
    capture_screen_go H W outs 1 st = capture_screen_go H W (outs.take 2) 1 st := by
  cases outs with
  | nil => rfl
  | cons o t =>
    cases o with
    | error e =>
      simp only [capture_screen_go, max_retries, List.take_succ_cons]
      exact capture_screen_go_last H W t _
    | frame f =>
      by_cases hnz : anyNonZero f <;>
        simp only [capture_screen_go, max_retries, List.take_succ_cons, hnz,
          if_true, if_false, Bool.false_eq_true, reduceIte]
      exact capture_screen_go_last H W t _

/-- C7: `capture_screen` terminates after at most `max_retries = 3` attempts —
its result depends only on the first three `capture_region` outcomes — and
when every attempt yields an all-black region it returns, after the last
attempt, the cached `_last_frame` (which the full-screen captures have
refreshed, so it equals the last all-black result) with the cache flag set. -/
theorem c7_theorem (H W : Nat) (f0 f1 f2 : Frame) (st : CapState)
    (h0 : anyNonZero f0 = false) (h1 : anyNonZero f1 = false)
    (h2 : anyNonZero f2 = false) :
    (∀ (outs : List CapResult) (st2 : CapState),
      capture_screen_go H W outs 0 st2
        = capture_screen_go H W (outs.take max_retries) 0 st2)
    ∧ capture_screen_go H W [CapResult.frame f0, CapResult.frame f1, CapResult.frame f2] 0 st
      = Except.ok (f2, ⟨true, some f2⟩) := by
  constructor
  · intro outs st2
    cases outs with
    | nil => rfl
    | cons o t =>
      cases o with
      | error e =>
        simp only [capture_screen_go, max_retries, List.take_succ_cons, reduceIte]
        exact capture_screen_go_snd H W t _
      | frame f =>
        by_cases hnz : anyNonZero f <;>
          simp only [capture_screen_go, max_retries, List.take_succ_cons, hnz,
            Bool.false_eq_true, reduceIte]
        exact capture_screen_go_snd H W t _
  · simp [capture_screen_go, max_retries, h0, h1, h2]

/-- Witness for C7: three all-black 1-by-1 attempts starting from an empty
cache end with the last black frame and a refreshed cache. -/
theorem c7_witness :
    (∀ (outs : List CapResult) (st2 : CapState),
      capture_screen_go 1 1 outs 0 st2
        = capture_screen_go 1 1 (outs.take max_retries) 0 st2)
    ∧ capture_screen_go 1 1
        [CapResult.frame (zerosFrame 1 1), CapResult.frame (zerosFrame 1 1),
          CapResult.frame (zerosFrame 1 1)] 0 ⟨false, none⟩
      = Except.ok (zerosFrame 1 1, ⟨true, some (zerosFrame 1 1)⟩) :=
  c7_theorem 1 1 (zerosFrame 1 1) (zerosFrame 1 1) (zerosFrame 1 1) ⟨false, none⟩
    rfl rfl rfl

/-- Counterexample for C5: a raised exception on the first attempt is caught
(line 160-166 swallows it because the attempt is not the last), a further
attempt is made, and the call succeeds with the second attempt's region
instead of propagating the error. -/
theorem c5_counterexample :
    capture_screen_go 1 1
        [CapResult.error "framebuffer update response failed",
          CapResult.frame ⟨1, 1, fun _ _ => ⟨255, 0, 0⟩⟩,
          CapResult.frame ⟨1, 1, fun _ _ => ⟨255, 0, 0⟩⟩] 0 ⟨false, none⟩
      = Except.ok (⟨1, 1, fun _ _ => ⟨255, 0, 0⟩⟩,
          ⟨true, some ⟨1, 1, fun _ _ => ⟨255, 0, 0⟩⟩⟩) := rfl

/-- C5 amended: exceptions raised by an attempt are swallowed on every attempt
except the last — the loop sleeps and retries — and only an exception raised
by the final attempt propagates to the caller; a post-error retry that yields
a non-black region makes the call succeed. -/
theorem c5_theorem (H W : Nat) (e0 e1 e2 : String) (st : CapState) (f : Frame)
    (hf : anyNonZero f = true) :
    capture_screen_go H W [CapResult.error e0, CapResult.error e1, CapResult.error e2] 0 st
      = Except.error e2
    ∧ capture_screen_go H W [CapResult.error e0, CapResult.frame f, CapResult.frame f] 0 st
      = Except.ok (f, ⟨true, some f⟩) := by
  constructor
  · rfl
  · simp [capture_screen_go, max_retries, hf]

/-- Witness for C5 amended at a concrete non-black 1-by-1 frame. -/
theorem c5_witness :
    anyNonZero ⟨1, 1, fun _ _ => ⟨8, 0, 0⟩⟩ = true
    ∧ (capture_screen_go 1 1
          [CapResult.error "a", CapResult.error "b", CapResult.error "c"] 0 ⟨false, none⟩
        = Except.error "c"
      ∧ capture_screen_go 1 1
          [CapResult.error "a", CapResult.frame ⟨1, 1, fun _ _ => ⟨8, 0, 0⟩⟩,
            CapResult.frame ⟨1, 1, fun _ _ => ⟨8, 0, 0⟩⟩] 0 ⟨false, none⟩
        = Except.ok (⟨1, 1, fun _ _ => ⟨8, 0, 0⟩⟩,
            ⟨true, some ⟨1, 1, fun _ _ => ⟨8, 0, 0⟩⟩⟩)) :=
  ⟨rfl, c5_theorem 1 1 "a" "b" "c" ⟨false, none⟩ ⟨1, 1, fun _ _ => ⟨8, 0, 0⟩⟩ rfl⟩

end Vncx
